import Mathlib

/-!
Verification of the ScanFlow ingestion-and-evaluation core.

The development shallowly embeds the TypeScript sources:
  * `src/evaluate.ts`   — `evaluatePendingBooks` and its `safeInt` guard;
  * `supabase.ts`       — `insertBooks`, `getPendingBooks`, `updateBookEvaluation`,
                          `getCheckpoint`, `saveCheckpoint`, `resetCheckpoint`;
  * `index.ts`          — the per-search checkpoint handling of `main`.

JavaScript numbers are modelled as `JSNum`: either a finite rational or one of
the non-finite values `nan`, `inf`, `ninf`.  `Math.round` rounds half toward
positive infinity, which on rationals is `⌊q + 1/2⌋`.  TypeScript
`number | null | undefined` becomes `Option JSNum` (`none` for both `null` and
`undefined`, which the code only distinguishes through `!= null` / `??`, both
of which identify them).

External collaborators absent from the sources (`evaluateBook` and
`getProductByIsbn` of `keepaApi.ts`, `scrapeAllListings` of `ebayApi.ts`, the
database transport) enter as explicit parameters: oracles giving the lookup
result per book, the pure evaluation function, and the database's response to
each write.  Database reads used by `getPendingBooks` are taken error-free:
the read loop is driven by the store contents themselves.
-/

namespace ScanFlow

/-- Model of a JavaScript number: a finite rational or a non-finite value. -/
inductive JSNum where
  | finite (q : ℚ)
  | nan
  | inf
  | ninf
deriving DecidableEq, Repr

/-- `Math.round` on rationals: round half toward positive infinity. -/
def jsRoundQ (q : ℚ) : ℤ := ⌊q + 1/2⌋

/-- `Math.round` lifted to JavaScript numbers (`Math.round` maps each
non-finite value to itself). -/
def JSNum.round : JSNum → JSNum
  | .finite q => .finite (jsRoundQ q)
  | .nan => .nan
  | .inf => .inf
  | .ninf => .ninf

/-- Multiplication by a positive rational constant (the code only scales by
`100`, `16` and `10`); non-finite values are preserved, as in IEEE arithmetic
with a positive finite factor. -/
def JSNum.mulPos (x : JSNum) (c : ℚ) : JSNum :=
  match x with
  | .finite q => .finite (q * c)
  | .nan => .nan
  | .inf => .inf
  | .ninf => .ninf

/-- Division by a positive rational constant; non-finite values preserved. -/
def JSNum.divPos (x : JSNum) (c : ℚ) : JSNum :=
  match x with
  | .finite q => .finite (q / c)
  | .nan => .nan
  | .inf => .inf
  | .ninf => .ninf

/-- `Number.isFinite`. -/
def JSNum.isFinite : JSNum → Bool
  | .finite _ => true
  | _ => false

/-- The `safeInt` guard of `evaluate.ts`:
`if (v == null || !Number.isFinite(v)) return undefined;
 const rounded = Math.round(v);
 if (rounded > 2_000_000_000 || rounded < -2_000_000_000) return undefined;
 return rounded;` -/
def safeInt : Option JSNum → Option ℤ
  | none => none
  | some x =>
    match x with
    | .finite q =>
      let rounded := jsRoundQ q
      if rounded > 2000000000 ∨ rounded < -2000000000 then none else some rounded
    | _ => none

/-- The decision values the Evaluation Engine can produce
(`'BUY' | 'REVIEW' | 'REJECT'` in the type of `updateBookEvaluation`). -/
inductive EvalDecision where
  | BUY
  | REVIEW
  | REJECT
deriving DecidableEq, Repr

/-- The decision values the catalog table can hold
(`'BUY' | 'REVIEW' | 'REJECT' | 'BOUGHT' | null` — `null` is `Option.none`). -/
inductive DbDecision where
  | BUY
  | REVIEW
  | REJECT
  | BOUGHT
deriving DecidableEq, Repr

/-- Inclusion of engine decisions into the catalog-table decision column. -/
def EvalDecision.toDb : EvalDecision → DbDecision
  | .BUY => .BUY
  | .REVIEW => .REVIEW
  | .REJECT => .REJECT

/-- The `EbayBook` record of `supabase.ts`: the durable catalog entry.
Money columns (`price`, `shipping`, and the evaluation money fields) are
integer cents; `weight_oz` is a plain numeric column; timestamps are the
ISO-8601 strings the code stores. -/
structure EbayBook where
  id : Option ℤ := none
  isbn : String
  title : String := ""
  price : ℤ := 0
  condition : String := ""
  seller : String := ""
  category : String := ""
  ebay_item_id : String := ""
  ebay_url : String := ""
  image_url : Option String := none
  shipping : ℤ := 0
  scraped_at : String := ""
  decision : Option DbDecision := none
  asin : Option String := none
  amazon_price : Option ℤ := none
  sales_rank : Option ℤ := none
  sales_rank_drops_90 : Option ℤ := none
  fba_profit : Option ℤ := none
  fbm_profit : Option ℤ := none
  amazon_flag : Option String := none
  book_type : Option String := none
  weight_oz : Option ℚ := none
  evaluated_at : Option String := none
  bought_at : Option String := none
deriving DecidableEq, Repr

/-- Modelled from the spec: the result record of `evaluateBook`
(`keepaApi.ts`, absent from the sources).  Only its field contract is needed:
a decision, a human-readable reason, and the optional valuation-derived
fields that `evaluate.ts` reads off it.  Dollar amounts and the weight are
JavaScript numbers, hence `Option JSNum`. -/
structure EvalResult where
  decision : EvalDecision
  reason : String := ""
  asin : Option String := none
  amazonPrice : Option JSNum := none
  salesRank : Option JSNum := none
  salesRankDrops90 : Option JSNum := none
  fbaProfit : Option JSNum := none
  fbmProfit : Option JSNum := none
  amazonFlag : Option String := none
  binding : Option String := none
  weightLbs : Option JSNum := none
deriving DecidableEq, Repr

/-- The argument record of `updateBookEvaluation`: `decision` is mandatory,
every other field optional (`undefined` = `none` is stripped before the
database write). -/
structure EvalUpdate where
  decision : EvalDecision
  asin : Option String := none
  amazon_price : Option ℤ := none
  sales_rank : Option ℤ := none
  sales_rank_drops_90 : Option ℤ := none
  fba_profit : Option ℤ := none
  fbm_profit : Option ℤ := none
  amazon_flag : Option String := none
  book_type : Option String := none
  weight_oz : Option ℚ := none
deriving DecidableEq, Repr

/-- `const buyPriceDollars = (book.price + book.shipping) / 100` — stored cents
to evaluation-time dollars. -/
def buyPriceDollars (price shipping : ℤ) : ℚ := (price + shipping : ℚ) / 100

/-- `result.x != null ? Math.round(result.x * 100) : undefined` — dollars to
cents at the persistence boundary. -/
def centsOf (d : Option JSNum) : Option JSNum :=
  d.map (fun v => (v.mulPos 100).round)

/-- `result.weightLbs != null ? Math.round(result.weightLbs * 16 * 10) / 10 :
undefined` — pounds to ounces, rounded to one decimal place. -/
def weightOzOf (w : Option JSNum) : Option JSNum :=
  w.map (fun v => ((v.mulPos (16 * 10)).round).divPos 10)

/-- `weightOz != null && Number.isFinite(weightOz) ? weightOz : undefined`. -/
def finiteVal : Option JSNum → Option ℚ
  | some (.finite q) => some q
  | _ => none

/-- The update payload `evaluate.ts` builds from an `EvalResult` in the
data-present branch (the object literal passed to `updateBookEvaluation`). -/
def resultToUpdate (result : EvalResult) : EvalUpdate :=
  { decision := result.decision
    asin := result.asin
    amazon_price := safeInt (centsOf result.amazonPrice)
    sales_rank := safeInt result.salesRank
    sales_rank_drops_90 := safeInt result.salesRankDrops90
    fba_profit := safeInt (centsOf result.fbaProfit)
    fbm_profit := safeInt (centsOf result.fbmProfit)
    amazon_flag := result.amazonFlag
    book_type := result.binding
    weight_oz := finiteVal (weightOzOf result.weightLbs) }

/-- The update payload of the no-data branch:
`updateBookEvaluation(book.isbn, { decision: 'REJECT' })`. -/
def noDataUpdate : EvalUpdate := { decision := .REJECT }

/-- One persisted outcome of the evaluation loop: the catalog key, the update
payload written for it, and the diagnostic reason logged for the decision
(the literal `no Keepa data` in the no-data branch, `result.reason`
otherwise). -/
structure BookOutcome where
  isbn : String
  payload : EvalUpdate
  reason : String
deriving DecidableEq, Repr

/-- One iteration of the `for (const book of pending)` loop of
`evaluatePendingBooks`, as the outcome it persists.  `lookup` stands for
`getProductByIsbn` (`none` = falsy result) and `evalFn` for the pure
`evaluateBook`, both external to the sources. -/
def evalStep {α : Type} (evalFn : α → ℚ → EvalResult) (lookup : EbayBook → Option α)
    (book : EbayBook) : BookOutcome :=
  match lookup book with
  | none => ⟨book.isbn, noDataUpdate, "no Keepa data"⟩
  | some raw =>
    let result := evalFn raw (buyPriceDollars book.price book.shipping)
    ⟨book.isbn, resultToUpdate result, result.reason⟩

/-- The counters `evaluatePendingBooks` returns. -/
structure EvalCounters where
  evaluated : ℕ
  buy : ℕ
  review : ℕ
  reject : ℕ
  noData : ℕ
deriving DecidableEq, Repr

/-- Counter update of one loop iteration: the no-data branch increments
`noData`; otherwise `BUY`/`REVIEW` increment their counters and every other
decision increments `reject`; `evaluated` increments on every iteration. -/
def stepCounters {α : Type} (evalFn : α → ℚ → EvalResult) (lookup : EbayBook → Option α)
    (book : EbayBook) (c : EvalCounters) : EvalCounters :=
  match lookup book with
  | none =>
    { c with evaluated := c.evaluated + 1, noData := c.noData + 1 }
  | some raw =>
    let result := evalFn raw (buyPriceDollars book.price book.shipping)
    match result.decision with
    | .BUY => { c with evaluated := c.evaluated + 1, buy := c.buy + 1 }
    | .REVIEW => { c with evaluated := c.evaluated + 1, review := c.review + 1 }
    | .REJECT => { c with evaluated := c.evaluated + 1, reject := c.reject + 1 }

/-- The evaluation loop of `evaluatePendingBooks` over the fetched pending
list: final counters plus the outcomes persisted, in iteration order. -/
def evalRun {α : Type} (evalFn : α → ℚ → EvalResult) (lookup : EbayBook → Option α) :
    List EbayBook → EvalCounters × List BookOutcome
  | [] => (⟨0, 0, 0, 0, 0⟩, [])
  | b :: rest =>
    let tail := evalRun evalFn lookup rest
    (stepCounters evalFn lookup b tail.1, evalStep evalFn lookup b :: tail.2)

/-- Suspension / call events of one run of `evaluatePendingBooks`, in program
order: a token-bucket acquisition (`waitForKeepaTokens`), a valuation lookup
(`getProductByIsbn`), a persistence write (`updateBookEvaluation`), the fixed
inter-item delay (`sleep`). -/
inductive RunEvent where
  | wait
  | lookupCall (isbn : String)
  | updateCall (isbn : String)
  | delay
deriving DecidableEq, Repr

/-- Events of one loop iteration: both branches perform, in order, the
token wait, the lookup, the evaluation write and the delay. -/
def bookEvents (b : EbayBook) : List RunEvent :=
  [.wait, .lookupCall b.isbn, .updateCall b.isbn, .delay]

/-- The event trace of a whole run of `evaluatePendingBooks`: one up-front
`waitForKeepaTokens` when the pending list is nonempty
(`if (pending.length > 0) await waitForKeepaTokens()`), then the loop. -/
def runEvents (pending : List EbayBook) : List RunEvent :=
  (if pending.length > 0 then [RunEvent.wait] else []) ++
    pending.flatMap bookEvents

/-- Checks that every `lookupCall` event in the list is immediately preceded
by a `wait` event; `prev` is the event before the list (none at the start of
the trace). -/
def lookupsGuarded : Option RunEvent → List RunEvent → Bool
  | _, [] => true
  | prev, e :: rest =>
    (match e with
     | .lookupCall _ => prev == some RunEvent.wait
     | _ => true) && lookupsGuarded (some e) rest

/-- `cleanEval[key] = value` semantics of one optional field: a defined value
overwrites, `undefined` is stripped and the stored column is untouched. -/
def setField {β : Type} (new old : Option β) : Option β :=
  match new with
  | some v => some v
  | none => old

/-- The successful database write of `updateBookEvaluation` applied to the
record with the given catalog key: `cleanEval` holds `evaluated_at = now`,
the mandatory `decision`, and exactly the defined optional fields; the
`update` touches no other column. -/
def updateBookEvaluation (now : String) (e : EvalUpdate) (r : EbayBook) : EbayBook :=
  { r with
    evaluated_at := some now
    decision := some e.decision.toDb
    asin := setField e.asin r.asin
    amazon_price := setField e.amazon_price r.amazon_price
    sales_rank := setField e.sales_rank r.sales_rank
    sales_rank_drops_90 := setField e.sales_rank_drops_90 r.sales_rank_drops_90
    fba_profit := setField e.fba_profit r.fba_profit
    fbm_profit := setField e.fbm_profit r.fbm_profit
    amazon_flag := setField e.amazon_flag r.amazon_flag
    book_type := setField e.book_type r.book_type
    weight_oz := setField e.weight_oz r.weight_oz }

/-- An error object of the persistence client, as the code reads it:
a `code` and a `message`. -/
structure DbError where
  code : String
  message : String
deriving DecidableEq, Repr

/-- `updateBookEvaluation` including the database response: on an error the
call reports failure and the record is unchanged; on success the update is
applied and the call reports success. -/
def updateBookEvaluationCall (dbRes : Option DbError) (now : String)
    (e : EvalUpdate) (r : EbayBook) : Bool × EbayBook :=
  match dbRes with
  | some _ => (false, r)
  | none => (true, updateBookEvaluation now e r)

/-- The counters `insertBooks` returns. -/
structure InsertCounts where
  saved : ℕ
  duplicates : ℕ
  errorCount : ℕ
deriving DecidableEq, Repr

/-- One iteration of the `for (const book of books)` loop of `insertBooks`:
no error counts the record as saved; error code `23505` (unique-key
violation) counts it as a duplicate; any other error counts it as an error.
Either way the loop continues with the next record. -/
def insertStep (c : InsertCounts) (dbRes : Option DbError) : InsertCounts :=
  match dbRes with
  | none => { c with saved := c.saved + 1 }
  | some e =>
    if e.code = "23505" then { c with duplicates := c.duplicates + 1 }
    else { c with errorCount := c.errorCount + 1 }

/-- `insertBooks` over the input books paired with the database's response to
each attempted insert (`β` is the scraped-book payload, opaque here: the
function only forwards it to the insert). -/
def insertBooks {β : Type} (attempts : List (β × Option DbError)) : InsertCounts :=
  attempts.foldl (fun c a => insertStep c a.2) ⟨0, 0, 0⟩

/-- The row filter of the pending query, including the JavaScript truthiness
of `if (seller) query = query.eq('seller', seller)`: the seller restriction
is applied only when the filter is a non-empty string. -/
def pendingPred (seller : Option String) (b : EbayBook) : Bool :=
  b.decision == none &&
    (match seller with
     | none => true
     | some s => if s = "" then true else b.seller == s)

/-- Comparison used by `order('scraped_at', { ascending: true })`. -/
def scrapedLe (a b : EbayBook) : Bool := a.scraped_at ≤ b.scraped_at

/-- The full result set of the pending query: rows with `decision` null
(and matching the seller filter), sorted by scrape time ascending. -/
def pendingSorted (store : List EbayBook) (seller : Option String) : List EbayBook :=
  (store.filter (pendingPred seller)).mergeSort scrapedLe

/-- One `range(from, from + pageSize - 1)` read of the pending query. -/
def queryPage (store : List EbayBook) (seller : Option String) (start : ℕ) :
    List EbayBook :=
  ((pendingSorted store seller).drop start).take 1000

/-- The `while (true)` pagination loop of `getPendingBooks`: read a page;
stop empty-handed on an empty page, stop after a short page, otherwise
accumulate and advance by the page size.  The loop provably needs at most
`⌈n/1000⌉ + 1` iterations over a store of `n` rows; `fuel` makes the
recursion structural and is instantiated large enough for that bound. -/
def getPendingBooksLoop (sorted : List EbayBook) : ℕ → ℕ → List EbayBook
  | 0, _ => []
  | fuel + 1, start =>
    let page := (sorted.drop start).take 1000
    if page.isEmpty then []
    else if page.length < 1000 then page
    else page ++ getPendingBooksLoop sorted fuel (start + 1000)

/-- `getPendingBooks`: the paginated read of all pending rows. -/
def getPendingBooks (store : List EbayBook) (seller : Option String) : List EbayBook :=
  getPendingBooksLoop (pendingSorted store seller) (store.length + 1) 0

/-- A row of the checkpoint table as `getCheckpoint` reads it. -/
structure CheckpointRow where
  last_offset : ℤ
deriving DecidableEq, Repr

/-- `getCheckpoint`: given the `{ data, error }` response of the single-row
read, `if (error || !data) return 0; return data.last_offset;`.  The function
is total: it never throws. -/
def getCheckpoint (dbRes : Option DbError × Option CheckpointRow) : ℤ :=
  match dbRes with
  | (some _, _) => 0
  | (none, none) => 0
  | (none, some row) => row.last_offset

/-- Modelled from the spec: the checkpoint-save offsets of one crawl.
`scrapeAllListings` (`ebayApi.ts`) is absent from the sources; per the spec
(§4.1) the scraper fetches fixed-size pages (size 200) starting at
`startOffset` and after each page invokes the checkpoint-save callback with
the next offset, so processing `numPages` pages saves
`startOffset + 200, startOffset + 400, …`, in that order.  The callback in
`index.ts` forwards each offset to `saveCheckpoint`. -/
def crawlSaves (startOffset numPages : ℕ) : List ℕ :=
  (List.range numPages).map (fun k => startOffset + 200 * (k + 1))

/-- A write to the checkpoint row of one (seller, search): a `saveCheckpoint`
with an offset, or the `resetCheckpoint` upsert of offset 0. -/
inductive CkptEvent where
  | save (offset : ℕ)
  | reset
deriving DecidableEq, Repr

/-- The checkpoint writes of one (seller, search) pass of `main`
(`index.ts`): the crawl's saves, then — exactly when the scraper returned
`completed = true` — the `resetCheckpoint` call.  A crawl ended by an error
or an early stop performs no further write after the last save. -/
def searchCheckpointEvents (startOffset numPages : ℕ) (completed : Bool) :
    List CkptEvent :=
  (crawlSaves startOffset numPages).map .save ++
    (if completed then [CkptEvent.reset] else [])

/-- Effect of one checkpoint write on the stored offset (`saveCheckpoint`
upserts the offset, `resetCheckpoint` upserts 0). -/
def applyCkpt : ℕ → CkptEvent → ℕ
  | _, .save o => o
  | _, .reset => 0

/-- The stored offset after a sequence of checkpoint writes, starting from
the previously stored value. -/
def finalCheckpoint (prev : ℕ) (events : List CkptEvent) : ℕ :=
  events.foldl applyCkpt prev

/-- Rounding a value that is already an integer changes nothing. -/
theorem jsRoundQ_intCast (n : ℤ) : jsRoundQ (n : ℚ) = n := by
  unfold jsRoundQ
  rw [Int.floor_int_add]
  norm_num

/-- Claim C2: `safeInt` returns no value when its input is null/undefined,
non-finite, or rounds beyond ±2,000,000,000; otherwise it returns the rounded
value.  An out-of-bound value is never clamped, wrapped or truncated: the
result is either absent or exactly the rounded input. -/
theorem safeInt_guard :
    safeInt none = none
    ∧ safeInt (some JSNum.nan) = none
    ∧ safeInt (some JSNum.inf) = none
    ∧ safeInt (some JSNum.ninf) = none
    ∧ (∀ q : ℚ, 2000000000 < jsRoundQ q → safeInt (some (JSNum.finite q)) = none)
    ∧ (∀ q : ℚ, jsRoundQ q < -2000000000 → safeInt (some (JSNum.finite q)) = none)
    ∧ (∀ q : ℚ, -2000000000 ≤ jsRoundQ q → jsRoundQ q ≤ 2000000000 →
        safeInt (some (JSNum.finite q)) = some (jsRoundQ q))
    ∧ (∀ v : Option JSNum, safeInt v = none ∨
        ∃ q : ℚ, v = some (JSNum.finite q) ∧ safeInt v = some (jsRoundQ q)) := by
  refine ⟨rfl, rfl, rfl, rfl, ?_, ?_, ?_, ?_⟩
  · intro q h
    simp [safeInt, h]
  · intro q h
    simp only [safeInt]
    rw [if_pos (Or.inr h)]
  · intro q h1 h2
    simp only [safeInt]
    rw [if_neg]
    push_neg
    exact ⟨h2, h1⟩
  · intro v
    match v with
    | none => exact Or.inl rfl
    | some JSNum.nan => exact Or.inl rfl
    | some JSNum.inf => exact Or.inl rfl
    | some JSNum.ninf => exact Or.inl rfl
    | some (JSNum.finite q) =>
      by_cases h : jsRoundQ q > 2000000000 ∨ jsRoundQ q < -2000000000
      · exact Or.inl (by simp [safeInt, h])
      · exact Or.inr ⟨q, rfl, by simp [safeInt, h]⟩

/-- Witness for C2: a value rounding to 2,500,000,000 is dropped; 5/2 rounds
to 3 and is kept. -/
theorem safeInt_guard_witness :
    safeInt (some (JSNum.finite 2500000000)) = none
    ∧ safeInt (some (JSNum.finite (5/2))) = some (jsRoundQ (5/2)) :=
  ⟨safeInt_guard.2.2.2.2.1 2500000000 (by norm_num [jsRoundQ]),
   safeInt_guard.2.2.2.2.2.2.1 (5/2) (by norm_num [jsRoundQ]) (by norm_num [jsRoundQ])⟩

/-- Claim C10: `getCheckpoint` resolves to 0 both on a persistence read error
and on a missing checkpoint row; being a total function of the response, it
never throws — its result is always either 0 or the stored offset. -/
theorem getCheckpoint_total (dbRes : Option DbError × Option CheckpointRow) :
    (∀ e rowOpt, dbRes = (some e, rowOpt) → getCheckpoint dbRes = 0)
    ∧ (dbRes.2 = none → getCheckpoint dbRes = 0)
    ∧ (getCheckpoint dbRes = 0 ∨
        ∃ row, dbRes = (none, some row) ∧ getCheckpoint dbRes = row.last_offset) := by
  obtain ⟨e?, r?⟩ := dbRes
  match e?, r? with
  | some e, r? =>
    refine ⟨fun _ _ _ => rfl, fun _ => rfl, Or.inl rfl⟩
  | none, none =>
    refine ⟨fun _ _ h => by simp at h, fun _ => rfl, Or.inl rfl⟩
  | none, some row =>
    refine ⟨fun _ _ h => by simp at h, fun h => by simp at h, Or.inr ⟨row, rfl, rfl⟩⟩

/-- Witness for C10: a failed read and a missing row both yield offset 0. -/
theorem getCheckpoint_total_witness :
    getCheckpoint (some ⟨"PGRST116", "not found"⟩, none) = 0
    ∧ getCheckpoint ((none : Option DbError), (none : Option CheckpointRow)) = 0 :=
  ⟨(getCheckpoint_total (some ⟨"PGRST116", "not found"⟩, none)).1 ⟨"PGRST116", "not found"⟩ none rfl,
   (getCheckpoint_total ((none : Option DbError), (none : Option CheckpointRow))).2.1 rfl⟩

/-- Claim C4: a successful `updateBookEvaluation` writes exactly the defined
fields of the result plus `evaluated_at`: an absent optional field leaves the
stored column unchanged (never overwritten with null), a present field
overwrites it, every unrelated column of the record is untouched,
`evaluated_at` is stamped unconditionally, and a failed call changes
nothing. -/
theorem updateBookEvaluation_frame (now : String) (e : EvalUpdate) (r : EbayBook) :
    updateBookEvaluationCall none now e r = (true, updateBookEvaluation now e r)
    ∧ (∀ err, updateBookEvaluationCall (some err) now e r = (false, r))
    ∧ (updateBookEvaluation now e r).evaluated_at = some now
    ∧ (updateBookEvaluation now e r).decision = some e.decision.toDb
    ∧ (e.asin = none → (updateBookEvaluation now e r).asin = r.asin)
    ∧ (∀ v, e.asin = some v → (updateBookEvaluation now e r).asin = some v)
    ∧ (e.amazon_price = none → (updateBookEvaluation now e r).amazon_price = r.amazon_price)
    ∧ (∀ v, e.amazon_price = some v → (updateBookEvaluation now e r).amazon_price = some v)
    ∧ (e.sales_rank = none → (updateBookEvaluation now e r).sales_rank = r.sales_rank)
    ∧ (∀ v, e.sales_rank = some v → (updateBookEvaluation now e r).sales_rank = some v)
    ∧ (e.sales_rank_drops_90 = none →
        (updateBookEvaluation now e r).sales_rank_drops_90 = r.sales_rank_drops_90)
    ∧ (∀ v, e.sales_rank_drops_90 = some v →
        (updateBookEvaluation now e r).sales_rank_drops_90 = some v)
    ∧ (e.fba_profit = none → (updateBookEvaluation now e r).fba_profit = r.fba_profit)
    ∧ (∀ v, e.fba_profit = some v → (updateBookEvaluation now e r).fba_profit = some v)
    ∧ (e.fbm_profit = none → (updateBookEvaluation now e r).fbm_profit = r.fbm_profit)
    ∧ (∀ v, e.fbm_profit = some v → (updateBookEvaluation now e r).fbm_profit = some v)
    ∧ (e.amazon_flag = none → (updateBookEvaluation now e r).amazon_flag = r.amazon_flag)
    ∧ (∀ v, e.amazon_flag = some v → (updateBookEvaluation now e r).amazon_flag = some v)
    ∧ (e.book_type = none → (updateBookEvaluation now e r).book_type = r.book_type)
    ∧ (∀ v, e.book_type = some v → (updateBookEvaluation now e r).book_type = some v)
    ∧ (e.weight_oz = none → (updateBookEvaluation now e r).weight_oz = r.weight_oz)
    ∧ (∀ v, e.weight_oz = some v → (updateBookEvaluation now e r).weight_oz = some v)
    ∧ (updateBookEvaluation now e r).id = r.id
    ∧ (updateBookEvaluation now e r).isbn = r.isbn
    ∧ (updateBookEvaluation now e r).title = r.title
    ∧ (updateBookEvaluation now e r).price = r.price
    ∧ (updateBookEvaluation now e r).condition = r.condition
    ∧ (updateBookEvaluation now e r).seller = r.seller
    ∧ (updateBookEvaluation now e r).category = r.category
    ∧ (updateBookEvaluation now e r).ebay_item_id = r.ebay_item_id
    ∧ (updateBookEvaluation now e r).ebay_url = r.ebay_url
    ∧ (updateBookEvaluation now e r).image_url = r.image_url
    ∧ (updateBookEvaluation now e r).shipping = r.shipping
    ∧ (updateBookEvaluation now e r).scraped_at = r.scraped_at
    ∧ (updateBookEvaluation now e r).bought_at = r.bought_at := by
  refine ⟨rfl, fun _ => rfl, rfl, rfl, ?_, ?_, ?_, ?_, ?_, ?_, ?_, ?_, ?_, ?_, ?_, ?_,
    ?_, ?_, ?_, ?_, ?_, ?_, rfl, rfl, rfl, rfl, rfl, rfl, rfl, rfl, rfl, rfl, rfl, rfl, rfl⟩
  all_goals first
    | (intro h; simp [updateBookEvaluation, setField, h])
    | (intro v h; simp [updateBookEvaluation, setField, h])

/-- Witness for C4: with an update defining only a decision and a price, the
absent `asin` column survives, the price column is overwritten, and
`evaluated_at` is stamped. -/
theorem updateBookEvaluation_frame_witness :
    (updateBookEvaluation "2025-01-05T00:00:00Z"
        { decision := .BUY, amazon_price := some 3997 }
        { isbn := "9780000000001", asin := some "B00X" }).asin = some "B00X"
    ∧ (updateBookEvaluation "2025-01-05T00:00:00Z"
        { decision := .BUY, amazon_price := some 3997 }
        { isbn := "9780000000001", asin := some "B00X" }).amazon_price = some 3997
    ∧ (updateBookEvaluation "2025-01-05T00:00:00Z"
        { decision := .BUY, amazon_price := some 3997 }
        { isbn := "9780000000001", asin := some "B00X" }).evaluated_at =
          some "2025-01-05T00:00:00Z" :=
  ⟨(updateBookEvaluation_frame "2025-01-05T00:00:00Z"
      { decision := .BUY, amazon_price := some 3997 }
      { isbn := "9780000000001", asin := some "B00X" }).2.2.2.2.1 rfl,
   (updateBookEvaluation_frame "2025-01-05T00:00:00Z"
      { decision := .BUY, amazon_price := some 3997 }
      { isbn := "9780000000001", asin := some "B00X" }).2.2.2.2.2.2.2.1 3997 rfl,
   (updateBookEvaluation_frame "2025-01-05T00:00:00Z"
      { decision := .BUY, amazon_price := some 3997 }
      { isbn := "9780000000001", asin := some "B00X" }).2.2.1⟩

/-- Whether a database response is a unique-key violation (code `23505`). -/
def isDupRes (dbRes : Option DbError) : Bool :=
  match dbRes with
  | some e => e.code == "23505"
  | none => false

/-- Whether a database response is a non-duplicate error. -/
def isErrRes (dbRes : Option DbError) : Bool :=
  match dbRes with
  | some e => !(e.code == "23505")
  | none => false

/-- Reduction of `isDupRes` at `none`. -/
theorem isDupRes_none : isDupRes none = false := rfl

/-- Reduction of `isErrRes` at `none`. -/
theorem isErrRes_none : isErrRes none = false := rfl

/-- Reduction of `isDupRes` at `some`. -/
theorem isDupRes_some (e : DbError) : isDupRes (some e) = (e.code == "23505") := rfl

/-- Reduction of `isErrRes` at `some`. -/
theorem isErrRes_some (e : DbError) : isErrRes (some e) = !(e.code == "23505") := rfl

/-- The insert loop from any starting counters: each tally is the start plus
the count of the matching responses. -/
theorem insertLoop_spec {β : Type} :
    ∀ (l : List (β × Option DbError)) (c : InsertCounts),
      l.foldl (fun c a => insertStep c a.2) c =
        ⟨c.saved + l.countP (fun a => a.2 == none),
         c.duplicates + l.countP (fun a => isDupRes a.2),
         c.errorCount + l.countP (fun a => isErrRes a.2)⟩ := by
  intro l
  induction l with
  | nil => intro c; simp
  | cons a rest ih =>
    intro c
    rw [List.foldl_cons, ih]
    match h : a.2 with
    | none =>
      simp [List.countP_cons, insertStep, h, isDupRes, isErrRes]
      omega
    | some e =>
      by_cases hc : e.code = "23505"
      · simp [List.countP_cons, insertStep, h, hc, isDupRes, isErrRes]
        omega
      · simp [List.countP_cons, insertStep, h, hc, isDupRes, isErrRes]
        omega

/-- Claim C5: `insertBooks` attempts every insert and its counts partition
the input — saved + duplicates + errors equals the input length, a unique-key
violation (code 23505) is tallied as a duplicate and never as an error, any
other write error is tallied as an error, and no response aborts the loop. -/
theorem insertBooks_counts {β : Type} (attempts : List (β × Option DbError)) :
    (insertBooks attempts).saved + (insertBooks attempts).duplicates +
        (insertBooks attempts).errorCount = attempts.length
    ∧ (insertBooks attempts).saved = attempts.countP (fun a => a.2 == none)
    ∧ (insertBooks attempts).duplicates = attempts.countP (fun a => isDupRes a.2)
    ∧ (insertBooks attempts).errorCount = attempts.countP (fun a => isErrRes a.2) := by
  have h := insertLoop_spec attempts (⟨0, 0, 0⟩ : InsertCounts)
  unfold insertBooks
  rw [h]
  refine ⟨?_, by simp, by simp, by simp⟩
  simp only [Nat.zero_add]
  clear h
  induction attempts with
  | nil => simp
  | cons a rest ih =>
    rcases h2 : a.2 with _ | e
    · simp [List.countP_cons, h2, isDupRes_none, isErrRes_none]
      omega
    · by_cases hc : e.code = "23505"
      · simp [List.countP_cons, h2, isDupRes_some, isErrRes_some, hc]
        omega
      · simp [List.countP_cons, h2, isDupRes_some, isErrRes_some, hc]
        omega

/-- Folding save events applies the last saved offset (or keeps the previous
value when nothing was saved). -/
theorem finalCheckpoint_saves :
    ∀ (l : List ℕ) (prev : ℕ),
      finalCheckpoint prev (l.map CkptEvent.save) = l.getLast?.getD prev := by
  intro l
  induction l with
  | nil => intro prev; simp [finalCheckpoint]
  | cons o rest ih =>
    intro prev
    rw [List.map_cons, finalCheckpoint, List.foldl_cons]
    have h2 := ih o
    rw [finalCheckpoint] at h2
    rw [List.getLast?_cons]
    simpa [applyCkpt] using h2

/-- Claim C3 (spec-modelled crawl: `scrapeAllListings` is absent from the
sources, its checkpoint-save behaviour follows spec §4.1): the checkpoint row
of a (seller, search) receives the reset write exactly when the scraper
reported `completed = true`; a crawl ended otherwise leaves the stored offset
at the last save-callback value (or the previous value when no page was
completed); and the offsets saved within one crawl are monotonically
non-decreasing, all at least the starting offset. -/
theorem checkpoint_reset_iff (startOffset numPages : ℕ) (completed : Bool) (prev : ℕ) :
    (CkptEvent.reset ∈ searchCheckpointEvents startOffset numPages completed ↔
      completed = true)
    ∧ (completed = true →
        finalCheckpoint prev (searchCheckpointEvents startOffset numPages completed) = 0)
    ∧ (completed = false →
        finalCheckpoint prev (searchCheckpointEvents startOffset numPages completed) =
          ((crawlSaves startOffset numPages).getLast?).getD prev)
    ∧ List.Pairwise (· ≤ ·) (crawlSaves startOffset numPages)
    ∧ (∀ o ∈ crawlSaves startOffset numPages, startOffset ≤ o) := by
  refine ⟨?_, ?_, ?_, ?_, ?_⟩
  · cases completed with
    | true => simp [searchCheckpointEvents]
    | false => simp [searchCheckpointEvents, crawlSaves]
  · intro hc
    subst hc
    rw [searchCheckpointEvents, if_pos rfl, finalCheckpoint, List.foldl_append]
    rfl
  · intro hc
    subst hc
    rw [searchCheckpointEvents, if_neg (by simp), List.append_nil]
    exact finalCheckpoint_saves _ prev
  · rw [crawlSaves]
    exact (List.pairwise_le_range numPages).map _
      (fun a b hab => by omega)
  · intro o ho
    rw [crawlSaves] at ho
    obtain ⟨k, _, hk⟩ := List.mem_map.mp ho
    omega

/-- Witness for C3: an incomplete two-page crawl from offset 200 leaves the
checkpoint at the last saved offset; a completed crawl resets it to 0. -/
theorem checkpoint_reset_iff_witness :
    finalCheckpoint 5 (searchCheckpointEvents 200 2 false) =
      ((crawlSaves 200 2).getLast?).getD 5
    ∧ finalCheckpoint 7 (searchCheckpointEvents 0 3 true) = 0 :=
  ⟨(checkpoint_reset_iff 200 2 false 5).2.2.1 rfl,
   (checkpoint_reset_iff 0 3 true 7).2.1 rfl⟩

/-- The outcomes of the evaluation loop are the per-book steps, in iteration
order. -/
theorem evalRun_snd {α : Type} (evalFn : α → ℚ → EvalResult)
    (lookup : EbayBook → Option α) :
    ∀ pending : List EbayBook,
      (evalRun evalFn lookup pending).2 = pending.map (evalStep evalFn lookup) := by
  intro pending
  induction pending with
  | nil => rfl
  | cons b rest ih => simp [evalRun, ih]

/-- A concrete pending catalog entry, used by the closed witnesses. -/
def sampleBook : EbayBook :=
  { isbn := "9780000000001"
    title := "A Sample Book"
    price := 1000
    shipping := 300
    seller := "alice"
    scraped_at := "2025-01-01T00:00:00Z" }

/-- A concrete evaluation-engine result, used by the closed witnesses. -/
def sampleResult : EvalResult :=
  { decision := .BUY
    reason := "multiplier above threshold"
    asin := some "B00X"
    amazonPrice := some (.finite (3997/100))
    salesRank := some (.finite 120000)
    salesRankDrops90 := some (.finite 12)
    fbaProfit := some (.finite (1003/100))
    fbmProfit := some (.finite (55/10))
    amazonFlag := some "OK"
    binding := some "paperback"
    weightLbs := some (.finite (12/10)) }

/-- Claim C1: a pending book whose valuation lookup yields no data is
persisted with `decision = REJECT` and every financial field unset, under the
diagnostic reason `no Keepa data`; and every pending entry yields exactly one
persisted outcome whose stored decision is terminal (non-null). -/
theorem noData_reject {α : Type} (evalFn : α → ℚ → EvalResult)
    (lookup : EbayBook → Option α) (pending : List EbayBook) (b : EbayBook)
    (hb : b ∈ pending) (h : lookup b = none) :
    BookOutcome.mk b.isbn noDataUpdate "no Keepa data" ∈ (evalRun evalFn lookup pending).2
    ∧ noDataUpdate.decision = EvalDecision.REJECT
    ∧ noDataUpdate.asin = none
    ∧ noDataUpdate.amazon_price = none
    ∧ noDataUpdate.sales_rank = none
    ∧ noDataUpdate.sales_rank_drops_90 = none
    ∧ noDataUpdate.fba_profit = none
    ∧ noDataUpdate.fbm_profit = none
    ∧ noDataUpdate.amazon_flag = none
    ∧ noDataUpdate.book_type = none
    ∧ noDataUpdate.weight_oz = none
    ∧ (evalRun evalFn lookup pending).2.length = pending.length
    ∧ (∀ o ∈ (evalRun evalFn lookup pending).2, ∀ now r,
        (updateBookEvaluation now o.payload r).decision ≠ none) := by
  refine ⟨?_, rfl, rfl, rfl, rfl, rfl, rfl, rfl, rfl, rfl, rfl, ?_, ?_⟩
  · rw [evalRun_snd]
    refine List.mem_map.mpr ⟨b, hb, ?_⟩
    simp [evalStep, h]
  · rw [evalRun_snd]
    exact List.length_map _ _
  · intro o _ now r
    simp [updateBookEvaluation]

/-- Witness for C1: a run over one pending book whose lookup finds nothing
contains the fixed REJECT outcome. -/
theorem noData_reject_witness :
    BookOutcome.mk sampleBook.isbn noDataUpdate "no Keepa data" ∈
      (evalRun (fun (_ : Unit) (_ : ℚ) => sampleResult) (fun _ => none) [sampleBook]).2 :=
  (noData_reject (fun (_ : Unit) (_ : ℚ) => sampleResult) (fun _ => none)
    [sampleBook] sampleBook (by simp) rfl).1

/-- Within the loop trace, every lookup is immediately preceded by a token
wait, whatever event came before the loop. -/
theorem lookupsGuarded_loop :
    ∀ (l : List EbayBook) (prev : Option RunEvent),
      lookupsGuarded prev (l.flatMap bookEvents) = true := by
  intro l
  induction l with
  | nil => intro prev; rfl
  | cons b rest ih =>
    intro prev
    simp only [List.flatMap_cons, bookEvents, List.cons_append, List.nil_append]
    simp [lookupsGuarded, ih]

/-- Claim C8: in every run of `evaluatePendingBooks`, each valuation lookup —
the first included — is immediately preceded in the suspension trace by a
token-bucket acquisition; no lookup happens without one. -/
theorem wait_before_lookup (pending : List EbayBook) :
    lookupsGuarded none (runEvents pending) = true := by
  cases pending with
  | nil => rfl
  | cons b rest =>
    have h : runEvents (b :: rest) =
        RunEvent.wait :: (b :: rest).flatMap bookEvents := by
      simp [runEvents]
    rw [h]
    simp [lookupsGuarded, lookupsGuarded_loop]
    simpa [List.flatMap_def] using lookupsGuarded_loop rest (some RunEvent.delay)

/-- Claim C9: on a run that completes, the returned counters satisfy
`evaluated = buy + review + reject + noData`, `evaluated` equals the number
of pending books fetched, `noData` counts exactly the books whose lookup
returned nothing, and the persisted REJECT decisions number `reject +
noData` — so the returned `reject` undercounts the stored REJECTs by the
no-data books. -/
theorem counters_partition {α : Type} (evalFn : α → ℚ → EvalResult)
    (lookup : EbayBook → Option α) (pending : List EbayBook) :
    (evalRun evalFn lookup pending).1.evaluated =
        (evalRun evalFn lookup pending).1.buy + (evalRun evalFn lookup pending).1.review +
        (evalRun evalFn lookup pending).1.reject + (evalRun evalFn lookup pending).1.noData
    ∧ (evalRun evalFn lookup pending).1.evaluated = pending.length
    ∧ (evalRun evalFn lookup pending).1.noData =
        pending.countP (fun b => (lookup b).isNone)
    ∧ (evalRun evalFn lookup pending).2.countP
          (fun o => decide (o.payload.decision = EvalDecision.REJECT)) =
        (evalRun evalFn lookup pending).1.reject + (evalRun evalFn lookup pending).1.noData := by
  induction pending with
  | nil => exact ⟨rfl, rfl, rfl, rfl⟩
  | cons b rest ih =>
    obtain ⟨ih1, ih2, ih3, ih4⟩ := ih
    rcases hb : lookup b with _ | raw
    · refine ⟨?_, ?_, ?_, ?_⟩
      all_goals
        simp [evalRun, stepCounters, evalStep, noDataUpdate, List.countP_cons, hb,
          ih1, ih2, ih3, ih4]
      all_goals omega
    · rcases hd : (evalFn raw (buyPriceDollars b.price b.shipping)).decision with _ | _ | _
      all_goals (
        refine ⟨?_, ?_, ?_, ?_⟩
        all_goals
          simp [evalRun, stepCounters, evalStep, resultToUpdate, List.countP_cons, hb, hd,
            ih1, ih2, ih3, ih4]
        all_goals omega)

/-- A defined `safeInt` output is exactly the rounded finite input. -/
theorem safeInt_eq_some (v : Option JSNum) (c : ℤ) (h : safeInt v = some c) :
    ∃ q : ℚ, v = some (JSNum.finite q) ∧ c = jsRoundQ q := by
  match v with
  | none => simp [safeInt] at h
  | some JSNum.nan => simp [safeInt] at h
  | some JSNum.inf => simp [safeInt] at h
  | some JSNum.ninf => simp [safeInt] at h
  | some (JSNum.finite q) =>
    refine ⟨q, rfl, ?_⟩
    simp only [safeInt] at h
    by_cases hb : jsRoundQ q > 2000000000 ∨ jsRoundQ q < -2000000000
    · rw [if_pos hb] at h
      exact absurd h (by simp)
    · rw [if_neg hb] at h
      exact (Option.some_injective _ h).symm

/-- A persisted cents field comes from a finite dollar value rounded to the
nearest cent. -/
theorem safeInt_centsOf_eq (d : Option JSNum) (c : ℤ) (h : safeInt (centsOf d) = some c) :
    ∃ q : ℚ, d = some (JSNum.finite q) ∧ c = jsRoundQ (q * 100) := by
  match d with
  | none => simp [centsOf, safeInt] at h
  | some JSNum.nan => simp [centsOf, JSNum.mulPos, JSNum.round, safeInt] at h
  | some JSNum.inf => simp [centsOf, JSNum.mulPos, JSNum.round, safeInt] at h
  | some JSNum.ninf => simp [centsOf, JSNum.mulPos, JSNum.round, safeInt] at h
  | some (JSNum.finite q) =>
    refine ⟨q, rfl, ?_⟩
    have h2 : safeInt (some (JSNum.finite ((jsRoundQ (q * 100) : ℤ) : ℚ))) = some c := by
      simpa [centsOf, JSNum.mulPos, JSNum.round] using h
    obtain ⟨q2, hq2, hc⟩ := safeInt_eq_some _ c h2
    have h3 : ((jsRoundQ (q * 100) : ℤ) : ℚ) = q2 := by
      simpa using hq2
    rw [hc, ← h3, jsRoundQ_intCast]

/-- Claim C7: at the evaluation boundary, the buy price handed to the engine
is `(price cents + shipping cents) / 100`; every persisted money field is the
dollar value times 100 rounded to the nearest integer; and the persisted
weight is the pound value times 16 (ounces), rounded to one decimal place. -/
theorem money_boundary :
    (∀ {α : Type} (evalFn : α → ℚ → EvalResult) (lookup : EbayBook → Option α)
        (b : EbayBook) (raw : α), lookup b = some raw →
      evalStep evalFn lookup b =
        ⟨b.isbn, resultToUpdate (evalFn raw ((b.price + b.shipping : ℚ) / 100)),
         (evalFn raw ((b.price + b.shipping : ℚ) / 100)).reason⟩)
    ∧ (∀ (result : EvalResult) (c : ℤ), (resultToUpdate result).amazon_price = some c →
        ∃ q : ℚ, result.amazonPrice = some (JSNum.finite q) ∧ c = jsRoundQ (q * 100))
    ∧ (∀ (result : EvalResult) (c : ℤ), (resultToUpdate result).fba_profit = some c →
        ∃ q : ℚ, result.fbaProfit = some (JSNum.finite q) ∧ c = jsRoundQ (q * 100))
    ∧ (∀ (result : EvalResult) (c : ℤ), (resultToUpdate result).fbm_profit = some c →
        ∃ q : ℚ, result.fbmProfit = some (JSNum.finite q) ∧ c = jsRoundQ (q * 100))
    ∧ (∀ (result : EvalResult) (w : ℚ), (resultToUpdate result).weight_oz = some w →
        ∃ q : ℚ, result.weightLbs = some (JSNum.finite q) ∧
          w = (jsRoundQ (q * (16 * 10)) : ℚ) / 10) := by
  refine ⟨?_, ?_, ?_, ?_, ?_⟩
  · intro α evalFn lookup b raw h
    simp [evalStep, h, buyPriceDollars]
  · intro result c h
    exact safeInt_centsOf_eq result.amazonPrice c h
  · intro result c h
    exact safeInt_centsOf_eq result.fbaProfit c h
  · intro result c h
    exact safeInt_centsOf_eq result.fbmProfit c h
  · intro result w h
    match hw : result.weightLbs with
    | none => simp [resultToUpdate, weightOzOf, finiteVal, hw] at h
    | some JSNum.nan =>
      simp [resultToUpdate, weightOzOf, finiteVal, JSNum.mulPos, JSNum.round,
        JSNum.divPos, hw] at h
    | some JSNum.inf =>
      simp [resultToUpdate, weightOzOf, finiteVal, JSNum.mulPos, JSNum.round,
        JSNum.divPos, hw] at h
    | some JSNum.ninf =>
      simp [resultToUpdate, weightOzOf, finiteVal, JSNum.mulPos, JSNum.round,
        JSNum.divPos, hw] at h
    | some (JSNum.finite q) =>
      refine ⟨q, rfl, ?_⟩
      simp [resultToUpdate, weightOzOf, finiteVal, JSNum.mulPos, JSNum.round,
        JSNum.divPos, hw] at h
      exact h.symm

/-- Witness for C7: a book looked up successfully is evaluated at
(1000 + 300)/100 = 13 dollars; a 39.97-dollar price persists as 3997 cents;
1.2 pounds persist as 19.2 ounces. -/
theorem money_boundary_witness :
    evalStep (fun (_ : Unit) (_ : ℚ) => sampleResult) (fun _ => some ()) sampleBook =
      ⟨sampleBook.isbn, resultToUpdate sampleResult, "multiplier above threshold"⟩
    ∧ (∃ q : ℚ, sampleResult.amazonPrice = some (JSNum.finite q) ∧
        (3997 : ℤ) = jsRoundQ (q * 100))
    ∧ (∃ q : ℚ, sampleResult.weightLbs = some (JSNum.finite q) ∧
        ((96 : ℚ) / 5) = (jsRoundQ (q * (16 * 10)) : ℚ) / 10) :=
  ⟨money_boundary.1 (fun (_ : Unit) (_ : ℚ) => sampleResult) (fun _ => some ())
     sampleBook () rfl,
   money_boundary.2.1 sampleResult 3997 (by
     simp [sampleResult, resultToUpdate, centsOf, JSNum.mulPos, JSNum.round, safeInt]
     norm_num [jsRoundQ]),
   money_boundary.2.2.2.2 sampleResult (96 / 5) (by
     simp [sampleResult, resultToUpdate, weightOzOf, finiteVal, JSNum.mulPos,
       JSNum.round, JSNum.divPos]
     norm_num [jsRoundQ])⟩

/-- The pagination loop returns the whole remaining suffix of the sorted
result set whenever the fuel covers it: pagination loses and duplicates
nothing. -/
theorem getPendingBooksLoop_eq (sorted : List EbayBook) :
    ∀ (fuel start : ℕ), sorted.length ≤ start + 1000 * fuel →
      getPendingBooksLoop sorted fuel start = sorted.drop start := by
  intro fuel
  induction fuel with
  | zero =>
    intro start h
    rw [Nat.mul_zero, Nat.add_zero] at h
    exact (List.drop_eq_nil_of_le h).symm
  | succ fuel ih =>
    intro start h
    rw [getPendingBooksLoop]
    by_cases h1 : ((sorted.drop start).take 1000).isEmpty
    · rw [if_pos h1]
      rcases List.take_eq_nil_iff.mp (List.isEmpty_iff.mp h1) with h2 | h2
      · exact absurd h2 (by norm_num)
      · exact h2.symm
    · rw [if_neg h1]
      by_cases h2 : ((sorted.drop start).take 1000).length < 1000
      · rw [if_pos h2]
        have h3 : (sorted.drop start).length ≤ 1000 := by
          rw [List.length_take] at h2
          rcases Nat.lt_or_ge (sorted.drop start).length 1000 with h4 | h4
          · exact Nat.le_of_lt h4
          · rw [Nat.min_eq_left h4] at h2
            omega
        exact List.take_of_length_le h3
      · rw [if_neg h2]
        have h4 : getPendingBooksLoop sorted fuel (start + 1000) =
            sorted.drop (start + 1000) := by
          refine ih (start + 1000) ?_
          omega
        rw [h4]
        have h5 : sorted.drop (start + 1000) = (sorted.drop start).drop 1000 := by
          rw [List.drop_drop]
        rw [h5, List.take_append_drop]

/-- Claim C6 (amended): `getPendingBooks` returns exactly the entries whose
decision is null — restricted to the given seller when the filter is supplied
and non-empty (a falsy empty-string filter is treated as absent) — ordered by
scrape time ascending, and every internal page read is bounded by 1000 rows.
-/
theorem getPendingBooks_spec (store : List EbayBook) (seller : Option String) :
    getPendingBooks store seller = pendingSorted store seller
    ∧ (getPendingBooks store seller).Perm (store.filter (pendingPred seller))
    ∧ List.Pairwise (fun a b => scrapedLe a b = true) (getPendingBooks store seller)
    ∧ (∀ start, (queryPage store seller start).length ≤ 1000) := by
  have hlen : (pendingSorted store seller).length ≤ store.length := by
    rw [pendingSorted]
    calc ((store.filter (pendingPred seller)).mergeSort scrapedLe).length
        = (store.filter (pendingPred seller)).length :=
          (List.mergeSort_perm _ _).length_eq
      _ ≤ store.length := List.length_filter_le _ _
  have h0 : getPendingBooks store seller = pendingSorted store seller := by
    rw [getPendingBooks, getPendingBooksLoop_eq _ _ 0 (by omega), List.drop_zero]
  refine ⟨h0, ?_, ?_, ?_⟩
  · rw [h0, pendingSorted]
    exact List.mergeSort_perm _ _
  · rw [h0, pendingSorted]
    refine List.sorted_mergeSort ?_ ?_ _
    · intro a b c hab hbc
      simp only [scrapedLe, decide_eq_true_eq] at hab hbc ⊢
      exact le_trans hab hbc
    · intro a b
      simp only [scrapedLe, Bool.or_eq_true, decide_eq_true_eq]
      exact le_total _ _
  · intro start
    rw [queryPage]
    exact List.length_take_le _ _

/-- A concrete pending catalog entry of seller `alice`, used against the
empty-string seller filter. -/
def filterBook : EbayBook :=
  { isbn := "9780000000002"
    seller := "alice"
    scraped_at := "2025-01-02T00:00:00Z" }

/-- Counterexample to C6 as stated: over a store holding one pending book of
seller `alice`, the supplied filter `some ""` does not restrict the result —
`if (seller)` is false for the empty string, so the book is returned even
though no entry has seller `""`. -/
theorem seller_filter_counterexample :
    getPendingBooks [filterBook] (some "") = [filterBook]
    ∧ filterBook.seller = "alice"
    ∧ [filterBook].filter
        (fun b => decide (b.decision = none) && decide (b.seller = "")) = [] := by
  refine ⟨?_, rfl, rfl⟩
  have h1 : pendingSorted [filterBook] (some "") = [filterBook] := by
    rw [pendingSorted]
    have h2 : [filterBook].filter (pendingPred (some "")) = [filterBook] := rfl
    rw [h2, List.mergeSort_singleton]
  rw [getPendingBooks, h1]
  rfl

end ScanFlow
